import Mathlib

/-!
Shallow embedding of the query-understanding and ranking core of the
nasa-spaceapps-project backend, with proofs about its specified properties.

Modelling conventions:
* Python `str` values are modelled as `List Char` (with `String` wrappers at
  the edges).  Python string predicates (`isalnum`, `lower`, whitespace) are
  modelled at ASCII granularity, which covers every constant appearing in the
  source and every input used in the theorems below.
* Python floats are modelled as `ℚ`.  The single float comparison whose exact
  rounding could matter (`special_char_count > len(query) * 0.3` in
  `validate_query`) is modelled as `10 * count > 3 * len`; for every
  `len ≤ 500` the double-precision value `fl(len * fl(0.3))` and the rational
  `3*len/10` lie strictly between the same pair of consecutive integers (or
  are the same integer, when `10 ∣ len`), so the two comparisons against the
  integer `count` agree.
* Python dicts that carry optional keys are modelled as structures with
  `Option` fields (`none` = key absent) plus the Python truthiness rule that
  an empty string is falsy.
-/

namespace NasaSearch

/-- Whitespace as used by `str.strip` and the regex `\s` (ASCII fragment). -/
def isPyWs (c : Char) : Bool :=
  c = ' ' || c = '\t' || c = '\n' || c = '\r' || c = Char.ofNat 11 || c = Char.ofNat 12

/-- Python word character for the regex `\b` boundary (ASCII fragment of `\w`). -/
def isWordChar (c : Char) : Bool :=
  c.isAlphanum || c = '_'

/-- Model of `str.lower` (ASCII fragment). -/
def pyLower (l : List Char) : List Char :=
  l.map Char.toLower

/-- Model of `str.lstrip` (drop leading whitespace). -/
def lstrip (l : List Char) : List Char :=
  l.dropWhile isPyWs

/-- Model of `str.rstrip` (drop trailing whitespace). -/
def rstrip (l : List Char) : List Char :=
  (l.reverse.dropWhile isPyWs).reverse

/-- Model of `str.strip`. -/
def pyStrip (l : List Char) : List Char :=
  rstrip (lstrip l)

/-- Characters kept by the control-character filter in `sanitize_input`:
`ord(char) >= 32 or char in ['\n', '\t']`. -/
def keepCtrl (c : Char) : Bool :=
  32 ≤ c.toNat || c = '\n' || c = '\t'

/-- Model of `text.replace('\x00', '')`. -/
def removeNul (l : List Char) : List Char :=
  l.filter (fun c => c ≠ Char.ofNat 0)

/-- One left-to-right pass of `re.sub(r'\s+', ' ', text)`: the state records
whether the previous character belonged to a whitespace run already replaced
by a single `' '`. -/
def collapseWsAux : Bool → List Char → List Char
  | _, [] => []
  | inWs, c :: rest =>
    if isPyWs c then
      if inWs then collapseWsAux true rest else ' ' :: collapseWsAux true rest
    else c :: collapseWsAux false rest

/-- Model of `re.sub(r'\s+', ' ', text)`. -/
def collapseWs (l : List Char) : List Char :=
  collapseWsAux false l

/-- Model of `ai_service.sanitize_input`: strip, drop NUL, drop control
characters (keeping newline and tab), collapse whitespace runs. -/
def sanitizeInput (l : List Char) : List Char :=
  if l = [] then []
  else collapseWs ((removeNul (pyStrip l)).filter keepCtrl)

/-- String wrapper for `sanitize_input`. -/
def sanitizeInputS (s : String) : String :=
  ⟨sanitizeInput s.data⟩

/-- Boolean prefix test on character lists. -/
def startsWithL : List Char → List Char → Bool
  | [], _ => true
  | _ :: _, [] => false
  | a :: as, b :: bs => a = b && startsWithL as bs

/-- Boolean substring test on character lists. -/
def subInL (pat l : List Char) : Bool :=
  (List.range (l.length + 1)).any fun i => startsWithL pat (l.drop i)

/-- Membership of a pattern string as a substring, i.e. Python's `pat in s`. -/
def containsSub (pat : String) (l : List Char) : Bool :=
  subInL pat.data l

/-- Model of the regex class `[;<>|&$\x60]` (shell metacharacters). -/
def hasShellMeta (l : List Char) : Bool :=
  l.any (fun c => c = ';' || c = '<' || c = '>' || c = '|' || c = '&' || c = '$' || c = Char.ofNat 96)

/-- Scan for `*/` with no newline before it (the `.` of `/\*.*\*/` does not
match a newline under `re.search` without `DOTALL`). -/
def closesBeforeNewline : List Char → Bool
  | '*' :: '/' :: _ => true
  | '\n' :: rest => false && closesBeforeNewline rest
  | _ :: rest => closesBeforeNewline rest
  | [] => false

/-- Model of `re.search(r"/\*.*\*/", l)`: some `/*` is followed, on the same
line, by a closing `*/`. -/
def hasBlockComment (l : List Char) : Bool :=
  (List.range l.length).any fun i =>
    startsWithL "/*".data (l.drop i) && closesBeforeNewline (l.drop (i + 2))

/-- Word boundary before position `i`: start of string or a non-word character. -/
def boundaryBefore (l : List Char) (i : ℕ) : Bool :=
  i = 0 ||
    match l[i - 1]? with
    | some c => !isWordChar c
    | none => true

/-- Word boundary at the start of `rest` (end of string or a non-word character). -/
def boundaryAfter (rest : List Char) : Bool :=
  match rest with
  | [] => true
  | c :: _ => !isWordChar c

/-- Model of `re.search(r"\b" ++ w1 ++ r"\s+" ++ w2 ++ r"\b", l)` for literal
words `w1`, `w2`: since both words start and end with word characters, the
`\s+` run must end exactly where `w2` starts. -/
def hasWordPair (w1 w2 : String) (l : List Char) : Bool :=
  (List.range l.length).any fun i =>
    boundaryBefore l i && startsWithL w1.data (l.drop i) &&
      (match l.drop (i + w1.length) with
       | [] => false
       | c :: t =>
         isPyWs c &&
           (let t2 := t.dropWhile isPyWs
            startsWithL w2.data t2 && boundaryAfter (t2.drop w2.length)))

/-- Model of the `DANGEROUS_PATTERNS` scan of `validate_query`, applied to the
lower-cased query (`re.IGNORECASE` is subsumed by the lower-casing). -/
def dangerousMatch (l : List Char) : Bool :=
  hasShellMeta l || containsSub "--" l || hasBlockComment l ||
    hasWordPair "union" "select" l || hasWordPair "drop" "table" l ||
    containsSub "<script" l

/-- Characters that do not count as "special" in `validate_query`:
`char.isalnum() or char in [' ', '-', "'", ',', '.']` (ASCII `isalnum`). -/
def isAllowedChar (c : Char) : Bool :=
  c.isAlphanum || c = ' ' || c = '-' || c = Char.ofNat 39 || c = ',' || c = '.'

/-- Model of `special_char_count` in `validate_query`. -/
def specialCharCount (l : List Char) : ℕ :=
  (l.filter (fun c => !isAllowedChar c)).length

/-- Model of `ai_service.validate_query`.  The comparison
`special_char_count > len(query) * 0.3` is rendered as `3 * len < 10 * count`
(see the float note in the file header). -/
def validateQuery (l : List Char) : Bool × Option String :=
  if l = [] || pyStrip l = [] then (false, some "Query cannot be empty")
  else if l.length < 2 then (false, some "Query must be at least 2 characters")
  else if 500 < l.length then (false, some "Query must be less than 500 characters")
  else if dangerousMatch (pyLower l) then (false, some "Query contains invalid characters or patterns")
  else if 3 * l.length < 10 * specialCharCount l then (false, some "Query contains too many special characters")
  else (true, none)

/-- String wrapper for `validate_query`. -/
def validateQueryS (s : String) : Bool × Option String :=
  validateQuery s.data

/-- Auxiliary: a list either is empty or begins with a non-whitespace character. -/
def headOkL : List Char → Prop
  | [] => True
  | c :: _ => isPyWs c = false

/-- Python truthiness of an optional string: `None` and `""` are falsy. -/
def truthyS : Option String → Bool
  | none => false
  | some s => s ≠ ""

/-- An ASCII apostrophe, kept out of string literals. -/
def apos : String := ⟨[Char.ofNat 39]⟩

/-- The `BODY_KEYWORDS` ordered dictionary of `parse_natural_query`. -/
def BODY_KEYWORDS : List (String × String) :=
  [("red planet", "Mars"),
   ("moon", "Moon"), ("lunar", "Moon"), ("selenian", "Moon"), ("the moon", "Moon"),
   ("mars", "Mars"), ("martian", "Mars"),
   ("mercury", "Mercury"), ("mercurian", "Mercury"),
   ("venus", "Venus"), ("venusian", "Venus"),
   ("earth", "Earth"), ("terrestrial", "Earth"), ("terra", "Earth")]

/-- The `EVENT_KEYWORDS` ordered dictionary of `parse_natural_query`
(registration order is load-bearing: specific phrases come first). -/
def EVENT_KEYWORDS : List (String × String) :=
  [("dust storm", "Dust and Haze"), ("dust storms", "Dust and Haze"),
   ("sandstorm", "Dust and Haze"), ("sandstorms", "Dust and Haze"),
   ("dust devil", "Dust and Haze"), ("dust cloud", "Dust and Haze"),
   ("haze", "Dust and Haze"),
   ("wildfire", "Wildfires"), ("wildfires", "Wildfires"),
   ("forest fire", "Wildfires"), ("fire", "Wildfires"), ("fires", "Wildfires"),
   ("burn", "Wildfires"), ("burning", "Wildfires"),
   ("volcano", "Volcanoes"), ("volcanoes", "Volcanoes"), ("volcanic", "Volcanoes"),
   ("eruption", "Volcanoes"), ("eruptions", "Volcanoes"), ("lava", "Volcanoes"),
   ("hurricane", "Severe Storms"), ("cyclone", "Severe Storms"),
   ("typhoon", "Severe Storms"), ("tornado", "Severe Storms"),
   ("storm", "Severe Storms"), ("storms", "Severe Storms"),
   ("tempest", "Severe Storms"),
   ("flood", "Floods"), ("floods", "Floods"), ("flooding", "Floods"),
   ("inundation", "Floods"),
   ("earthquake", "Earthquakes"), ("earthquakes", "Earthquakes"),
   ("seismic", "Earthquakes"), ("tremor", "Earthquakes"), ("quake", "Earthquakes"),
   ("drought", "Drought"), ("droughts", "Drought"), ("dry spell", "Drought"),
   ("sea ice", "Sea and Lake Ice"), ("lake ice", "Sea and Lake Ice"),
   ("ice", "Sea and Lake Ice"),
   ("snow", "Snow"), ("snowfall", "Snow"), ("blizzard", "Snow")]

/-- The `category_patterns` ordered dictionary of `parse_natural_query`. -/
def categoryPatterns : List (String × List String) :=
  [("crater", ["crater", "impact", "basin"]),
   ("mons", ["mountain", "peak", "mons"]),
   ("montes", ["mountains", "range", "montes"]),
   ("vallis", ["valley", "vallis"]),
   ("mare", ["sea", "mare", "plain"]),
   ("rima", ["rille", "channel", "rima"]),
   ("rupes", ["cliff", "scarp", "rupes"]),
   ("dorsum", ["ridge", "dorsum"]),
   ("lacus", ["lake", "lacus"]),
   ("palus", ["marsh", "palus"])]

/-- Model of `str.capitalize` for the (already lower-case) category keys. -/
def pyCapitalize (s : String) : String :=
  match s.data with
  | [] => s
  | c :: r => ⟨Char.toUpper c :: r.map Char.toLower⟩

/-- The warning text attached to event searches (source f-string, with the
matched keyword interpolated). -/
def eventWarning (k : String) : String :=
  "Searching for dynamic events like " ++ apos ++ k ++ apos ++
    ". Note: Current database contains only static planetary features (craters, mountains, etc.). " ++
    "For real-time event data, NASA EONET API integration is required. " ++
    "Results will show semantically similar features if available."

/-- Result dictionary of `ai_service.parse_natural_query`; absent dict keys
are `none` (or `false` for the boolean `origin_filter` flag). -/
structure ParsedNat where
  semantic_query : List Char
  search_type : String
  error : Option String := none
  event_category : Option String := none
  event_keyword : Option String := none
  target_body : Option String := none
  warning : Option String := none
  category : Option String := none
  size_filter : Option String := none
  origin_filter : Bool := false
deriving DecidableEq, Repr

/-- First event phrase contained in the lower-cased query, with its category
(models the `for ... break` scan over `EVENT_KEYWORDS`). -/
def detectEvent (ql : List Char) : Option (String × String) :=
  EVENT_KEYWORDS.find? fun p => containsSub p.1 ql

/-- First body synonym contained in the lower-cased query (models the
`for ... break` scan over `BODY_KEYWORDS`). -/
def detectBody (ql : List Char) : Option String :=
  (BODY_KEYWORDS.find? fun p => containsSub p.1 ql).map (·.2)

/-- First category whose keyword list has a hit in the lower-cased query. -/
def detectCategory (ql : List Char) : Option String :=
  (categoryPatterns.find? fun p => p.2.any fun kw => containsSub kw ql).map
    fun p => pyCapitalize p.1

/-- Model of `ai_service.parse_natural_query` (the deterministic
keyword-cascade parser). -/
def parseNaturalQuery (rawQuery : List Char) (target_body : Option String) : ParsedNat :=
  match validateQuery (sanitizeInput rawQuery) with
  | (false, msg) =>
    { semantic_query := sanitizeInput rawQuery, error := msg, search_type := "feature" }
  | (true, _) =>
    let query := sanitizeInput rawQuery
    let ql := pyLower query
    let ev := detectEvent ql
    let st := match ev with
      | some _ => "event"
      | none => "feature"
    let tb := match detectBody ql with
      | some b => some b
      | none => if truthyS target_body then target_body else none
    let warn := if st = "event" then
        some (eventWarning (match ev with | some p => p.1 | none => "events"))
      else none
    let cat := if st = "feature" then detectCategory ql else none
    let size := if ["large", "big", "huge", "major"].any (fun w => containsSub w ql) then
        some "large"
      else if ["small", "tiny", "minor"].any (fun w => containsSub w ql) then
        some "small"
      else none
    let org := ["named after", "origin", "scientist", "astronaut", "person"].any
      fun w => containsSub w ql
    { semantic_query := query, search_type := st,
      event_category := ev.map (·.2), event_keyword := ev.map (·.1),
      target_body := tb, warning := warn, category := cat,
      size_filter := size, origin_filter := org }

/-- Structured output of `deepseek_service` parsing (remote JSON result or
fallback dictionary). -/
structure DSParsed where
  target_body : Option String := none
  category : Option String := none
  size_filter : Option String := none
  search_keywords : List String := []
  confidence : ℚ := 0
deriving DecidableEq, Repr

/-- The `body_keywords` dictionary of `_fallback_parser`. -/
def fbBodyKeywords : List (String × String) :=
  [("moon", "Moon"), ("lunar", "Moon"), ("mars", "Mars"), ("martian", "Mars"),
   ("mercury", "Mercury"), ("venus", "Venus"), ("earth", "Earth")]

/-- The `stop_words` set of `_fallback_parser`. -/
def stopWords : List String :=
  ["show", "me", "find", "the", "on", "in", "at", "where", "are", "a", "an", "is"]

/-- Accumulator pass of `str.split()` (split on whitespace runs, no empties). -/
def splitWsAux : List Char → List Char → List (List Char)
  | [], acc => if acc = [] then [] else [acc.reverse]
  | c :: rest, acc =>
    if isPyWs c then
      if acc = [] then splitWsAux rest [] else acc.reverse :: splitWsAux rest []
    else splitWsAux rest (c :: acc)

/-- Model of `str.split()` with no separator argument. -/
def splitWs (l : List Char) : List (List Char) :=
  splitWsAux l []

/-- Model of `deepseek_service._fallback_parser` (keyword-based fallback when
the remote parser is unavailable). -/
def fallbackParse (query : List Char) (target_body : Option String) : DSParsed :=
  let ql := pyLower query
  let tb := match (fbBodyKeywords.find? fun p => containsSub p.1 ql).map (·.2) with
    | some b => some b
    | none => if truthyS target_body then target_body else none
  let cat :=
    if ["crater", "impact", "basin"].any (fun w => containsSub w ql) then some "crater"
    else if ["mountain", "peak", "mons"].any (fun w => containsSub w ql) then some "mons"
    else if ["mountains", "range", "montes"].any (fun w => containsSub w ql) then some "montes"
    else if ["valley", "vallis"].any (fun w => containsSub w ql) then some "vallis"
    else if ["sea", "mare", "plain"].any (fun w => containsSub w ql) then some "mare"
    else none
  let size :=
    if ["large", "big", "huge", "biggest", "largest", "massive"].any (fun w => containsSub w ql) then
      some "large"
    else if ["small", "tiny", "smallest"].any (fun w => containsSub w ql) then some "small"
    else none
  let kws := ((splitWs ql).filter fun w =>
    (!(stopWords.any fun s => s.data == w)) && decide (2 < w.length)).take 5
  { confidence := 6/10, search_keywords := kws.map fun w => (⟨w⟩ : String),
    target_body := tb, category := cat, size_filter := size }

/-- Model of `deepseek_service.parse_query_with_deepseek`.  The remote call is
an oracle parameter: `none` stands for any failure outcome (missing response,
non-200 status, timeout, malformed JSON), `some parsed` for a parsed 200
response.  A falsy API key short-circuits to the fallback parser. -/
def parseQueryWithDeepseek (query : List Char) (target_body : Option String)
    (apiKey : Option String) (remote : Option DSParsed) : DSParsed :=
  if truthyS apiKey = false then fallbackParse query target_body
  else
    match remote with
    | none => fallbackParse query target_body
    | some parsed =>
      if truthyS target_body && !(truthyS parsed.target_body) then
        { parsed with target_body := target_body }
      else parsed

/-- The 384-dimension all-zero vector (`[0.0] * 384`). -/
def zeroVector : List ℚ :=
  List.replicate 384 0

/-- Outcome of the model step (`get_model()` + `model.encode(text)`), as an
oracle: a returned vector, a raised `ValueError` (which the source's
`except ValueError: raise` re-raises to the caller), or any other raised
exception (which `except Exception` absorbs). -/
inductive EncodeOutcome where
  | ok (v : List ℚ)
  | valueError (msg : String)
  | otherError
deriving DecidableEq, Repr

/-- Shared tail of `generate_embedding` after validation: empty sanitized text
yields the zero vector; the model step then either returns a vector, raises a
`ValueError` (re-raised, since `except ValueError: raise` spans the whole
`try` block), or raises anything else (caught, zero vector). -/
def embedTail (t : List Char) (encode : List Char → EncodeOutcome) :
    Except String (List ℚ) :=
  if t = [] then .ok zeroVector
  else
    match encode t with
    | .ok v => .ok v
    | .valueError m => .error m
    | .otherError => .ok zeroVector

/-- Model of `ai_service.generate_embedding`.  `Except.error` models a raised
`ValueError` — from validation failure, or escaping the model call itself;
every other internal failure is absorbed into the zero vector. -/
def generateEmbedding (text : List Char) (validate : Bool)
    (encode : List Char → EncodeOutcome) : Except String (List ℚ) :=
  if validate then
    match validateQuery (sanitizeInput text) with
    | (false, msg) =>
      .error ("Invalid query: " ++ (match msg with | some s => s | none => "None"))
    | (true, _) => embedTail (sanitizeInput text) encode
  else embedTail (sanitizeInput text) encode

/-- Catalog row (`database.PlanetaryFeature`) as consumed by the search and
scoring code. -/
structure PFeature where
  id : ℕ := 0
  feature_name : String
  target_body : String
  category : String
  latitude : ℚ := 0
  longitude : ℚ := 0
  diameter : Option ℚ := none
  origin : Option String := none
  description : Option String := none
  embedding_data : Option (List ℚ) := none
deriving DecidableEq, Repr

/-- The combined searchable text of `_calculate_keyword_score`:
`f"{name} {category} {description or ''}".lower()`. -/
def featureText (f : PFeature) : List Char :=
  pyLower (f.feature_name.data ++ " ".data ++ f.category.data ++ " ".data ++
    (f.description.getD "").data)

/-- Loop body of the keyword-scoring `for` loop in `_calculate_keyword_score`. -/
def kwStep (f : PFeature) (s : ℚ) (kw : String) : ℚ :=
  let k := pyLower kw.data
  if subInL k (featureText f) then
    if subInL k (pyLower f.feature_name.data) then s + 1
    else if subInL k (pyLower f.category.data) then s + 1/2
    else s + 3/10
  else s

/-- Per-keyword contribution of the loop (for the decomposition theorem). -/
def kwWeight (f : PFeature) (kw : String) : ℚ :=
  let k := pyLower kw.data
  if subInL k (featureText f) then
    if subInL k (pyLower f.feature_name.data) then 1
    else if subInL k (pyLower f.category.data) then 1/2
    else 3/10
  else 0

/-- Category bonus of `_calculate_keyword_score` (substring match, guarded by
Python truthiness of the parsed category). -/
def catBonus (f : PFeature) (parsed : DSParsed) : ℚ :=
  match parsed.category with
  | some c =>
    if c = "" then 0
    else if subInL (pyLower c.data) (pyLower f.category.data) then 2 else 0
  | none => 0

/-- Target-body bonus of `_calculate_keyword_score` (exact lower-case match). -/
def bodyBonus (f : PFeature) (parsed : DSParsed) : ℚ :=
  match parsed.target_body with
  | some b =>
    if b = "" then 0
    else if pyLower b.data = pyLower f.target_body.data then 1 else 0
  | none => 0

/-- Size bonus of `_calculate_keyword_score`: `if feature.diameter:` treats
both a missing and a zero diameter as falsy (partial credit `0.2`). -/
def sizeBonus (f : PFeature) (parsed : DSParsed) : ℚ :=
  match parsed.size_filter with
  | some sf =>
    if sf = "" then 0
    else
      match f.diameter with
      | some d =>
        if d ≠ 0 then
          if sf = "large" ∧ 100 < d then 1
          else if sf = "small" ∧ d < 10 then 1
          else 0
        else 2/10
      | none => 2/10
  | none => 0

/-- Model of `search_deepseek._calculate_keyword_score`. -/
def calcKeywordScore (f : PFeature) (keywords : List String) (parsed : DSParsed) : ℚ :=
  keywords.foldl (kwStep f) 1 + catBonus f parsed + bodyBonus f parsed +
    sizeBonus f parsed

/-- Modelled from the spec's words in §4.6 for comparison with the source's
`_calculate_keyword_score`: a weighted keyword-overlap sum (+1.0 per keyword
in the name, +0.5 in the category, +0.3 in the description, +2.0 for an exact
category match with the parsed intent, +1.0 for an exact body match), scaled
by the intent's confidence. -/
def specKeywordScore (f : PFeature) (keywords : List String) (parsed : DSParsed) : ℚ :=
  parsed.confidence *
    ((keywords.map fun kw =>
        (if subInL (pyLower kw.data) (pyLower f.feature_name.data) then (1 : ℚ) else 0) +
          (if subInL (pyLower kw.data) (pyLower f.category.data) then (1 : ℚ)/2 else 0) +
          (if subInL (pyLower kw.data) (pyLower (f.description.getD "").data) then (3 : ℚ)/10
           else 0)).sum +
      (match parsed.category with
       | some c => if pyLower c.data = pyLower f.category.data then (2 : ℚ) else 0
       | none => 0) +
      (match parsed.target_body with
       | some b => if pyLower b.data = pyLower f.target_body.data then (1 : ℚ) else 0
       | none => 0))

/-- The in-memory `_search_cache` dict: insertion-ordered `(key, value,
insertion-timestamp)` triples (`time.time()` modelled as a rational). -/
abbrev Cache (α : Type) := List (String × α × ℚ)

/-- Dict lookup `cache[key]` / `key in cache`. -/
def cacheLookup {α : Type} : Cache α → String → Option (α × ℚ)
  | [], _ => none
  | (k', v, ts) :: rest, k => if k' = k then some (v, ts) else cacheLookup rest k

/-- Dict deletion `del cache[key]` (removes the binding of `key`). -/
def eraseKey {α : Type} : Cache α → String → Cache α
  | [], _ => []
  | e :: rest, k => if e.1 = k then rest else e :: eraseKey rest k

/-- Dict assignment `cache[key] = value`: update in place if present
(preserving insertion order), else append. -/
def dictInsert {α : Type} : Cache α → String → α → ℚ → Cache α
  | [], k, v, ts => [(k, v, ts)]
  | e :: rest, k, v, ts =>
    if e.1 = k then (k, v, ts) :: rest else e :: dictInsert rest k v ts

/-- Model of `search_deepseek._get_cached_result` (also returning the cache
state, since an expired entry is deleted): a hit requires strictly less than
300 seconds elapsed since insertion. -/
def getCachedResult {α : Type} (c : Cache α) (now : ℚ) (k : String) :
    Option α × Cache α :=
  match cacheLookup c k with
  | none => (none, c)
  | some (r, ts) => if now - ts < 300 then (some r, c) else (none, eraseKey c k)

/-- Model of `min(cache.keys(), key=lambda k: cache[k][1])`: the earliest
entry with the minimal timestamp (Python `min` keeps the first minimum). -/
def oldestEntry {α : Type} : Cache α → Option (String × α × ℚ)
  | [] => none
  | e :: es =>
    match oldestEntry es with
    | none => some e
    | some b => if b.2.2 < e.2.2 then some b else some e

/-- Model of `search_deepseek._cache_result`: at capacity (100 entries) the
oldest-inserted entry is evicted before the insert. -/
def cacheResult {α : Type} (c : Cache α) (now : ℚ) (k : String) (v : α) : Cache α :=
  let c1 := if 100 ≤ c.length then
      (match oldestEntry c with
       | some b => eraseKey c b.1
       | none => c)
    else c
  dictInsert c1 k v now

/-- Model of `search_deepseek._get_cache_key`. -/
def getCacheKey (query : List Char) (target_body : Option String) : List Char :=
  pyLower query ++ ":".data ++
    (match target_body with
     | some t => if t = "" then "all".data else t.data
     | none => "all".data)

/-- A full 100-entry cache for exercising the eviction path. -/
def cache100 : Cache ℕ :=
  (List.range 100).map fun i => ("k", 0, (i : ℚ))

/-- Event record as consumed by `semantic_search` (fields of
`format_event_for_display`'s output). -/
structure EONETEventF where
  id : String := ""
  title : String := ""
  description : Option String := none
  categories : List String := []
  latitude : Option ℚ := none
  longitude : Option ℚ := none
  date : Option String := none
  link : Option String := none
deriving DecidableEq, Repr

/-- Model of the `description` field of `format_event_for_display`:
`event.description or f"Natural event: {event.title}"`. -/
def formatEventDescription (e : EONETEventF) : String :=
  match e.description with
  | some d => if d = "" then "Natural event: " ++ e.title else d
  | none => "Natural event: " ++ e.title

/-- Model of `search.FeatureResult` (the unified result record; `id` and
`category` are unions over the feature/event shapes). -/
structure FeatureResultF where
  id : ℕ ⊕ String
  name : String
  body : Option String := none
  category : String ⊕ List String := Sum.inl ""
  latitude : Option ℚ := none
  longitude : Option ℚ := none
  diameter : Option ℚ := none
  origin : Option String := none
  description : Option String := none
  similarity_score : Option ℚ := none
  is_dynamic_event : Bool := false
  event_date : Option String := none
  event_link : Option String := none
deriving DecidableEq, Repr

/-- Model of `search.SearchRequest`. -/
structure SearchRequestF where
  query : List Char
  target_body : Option String := none
  limit : ℕ := 10
  include_events : Bool := true
  event_days : ℕ := 30
deriving DecidableEq, Repr

/-- Model of `search.SearchResponse`. -/
structure SearchResponseF where
  query : List Char
  parsed_query : ParsedNat
  results : List FeatureResultF
  total_results : ℕ
  event_count : ℕ := 0
  feature_count : ℕ := 0
deriving DecidableEq, Repr

/-- Sort key of the final merge: `x.similarity_score or 0` (for the rational
model, `0.0` is already `0`, so the Python falsy-zero coercion is the
identity on present scores). -/
def sortKey (r : FeatureResultF) : ℚ :=
  r.similarity_score.getD 0

/-- Stable descending insertion: an element is placed before the first
entry whose key is not larger, so earlier-listed elements win ties.  This is
observably `list.sort(key=..., reverse=True)` (a stable descending sort). -/
def insertDescBy {β : Type} (key : β → ℚ) (x : β) : List β → List β
  | [] => [x]
  | y :: ys => if key x < key y then y :: insertDescBy key x ys else x :: y :: ys

/-- Stable descending sort by key (Python `list.sort(key=..., reverse=True)`). -/
def sortDescBy {β : Type} (key : β → ℚ) : List β → List β
  | [] => []
  | x :: xs => insertDescBy key x (sortDescBy key xs)

/-- Model of `round(score, 4)` (to-nearest on rationals; the tie-breaking of
Python's float banker's rounding differs only on exact half-way values). -/
def roundQ4 (q : ℚ) : ℚ :=
  (round (q * 10000) : ℤ) / 10000

/-- Conversion of one fetched event into a `FeatureResult`
(`semantic_search` lines 145-161): fixed score `0.95`, no body. -/
def mkEventResult (e : EONETEventF) : FeatureResultF :=
  { id := Sum.inr e.id, name := e.title, body := none,
    category := Sum.inr e.categories,
    latitude := e.latitude, longitude := e.longitude,
    description := some (formatEventDescription e),
    is_dynamic_event := true, event_date := e.date, event_link := e.link,
    similarity_score := some (0.95 : ℚ) }

/-- The list of events actually fetched by `semantic_search`: empty unless
events are enabled, the parse was an event search, and an event category is
set; an upstream exception (`.error`) is absorbed into the empty list. -/
def eventSource (parsed : ParsedNat) (req : SearchRequestF)
    (eonet : Except Unit (List EONETEventF)) : List EONETEventF :=
  if req.include_events && (parsed.search_type == "event") then
    match parsed.event_category with
    | some c =>
      if c = "" then []
      else
        match eonet with
        | .ok evs => evs
        | .error _ => []
    | none => []
  else []

/-- Event half of the merged candidate list. -/
def eventCandidates (parsed : ParsedNat) (req : SearchRequestF)
    (eonet : Except Unit (List EONETEventF)) : List FeatureResultF :=
  (eventSource parsed req eonet).map mkEventResult

/-- Model of the database filters of `semantic_search` (lines 168-196):
case-insensitive body equality, case-insensitive category substring,
diameter thresholds (SQL `NULL` comparisons are false), non-null origin. -/
def featureFilter (db : List PFeature) (parsed : ParsedNat)
    (reqBody : Option String) : List PFeature :=
  let target : Option String :=
    match parsed.target_body with
    | some s => if s = "" then reqBody else some s
    | none => reqBody
  let f1 := match target with
    | some t =>
      if t = "" then db
      else db.filter fun f => pyLower f.target_body.data = pyLower t.data
    | none => db
  let f2 := match parsed.category with
    | some c =>
      if c = "" then f1
      else f1.filter fun f => subInL (pyLower c.data) (pyLower f.category.data)
    | none => f1
  let f3 := match parsed.size_filter with
    | some sf =>
      if sf = "" then f2
      else if pyLower sf.data = "large".data then
        f2.filter fun f =>
          match f.diameter with
          | some d => decide (50 < d)
          | none => false
      else if pyLower sf.data = "small".data then
        f2.filter fun f =>
          match f.diameter with
          | some d => decide (d < 10)
          | none => false
      else f2
    | none => f2
  if parsed.origin_filter then f3.filter fun f => f.origin.isSome else f3

/-- Similarity scoring (lines 200-205): only features with a (truthy, so
non-empty) stored embedding participate; `cosSim` is the cosine-similarity
oracle (its real-number arithmetic is not the subject of any claim here). -/
def scoredFeatures (db : List PFeature) (cosSim : List ℚ → List ℚ → ℚ)
    (emb : List ℚ) (parsed : ParsedNat) (reqBody : Option String) :
    List (PFeature × ℚ) :=
  (featureFilter db parsed reqBody).filterMap fun f =>
    match f.embedding_data with
    | some ed => if ed = [] then none else some (f, cosSim emb ed)
    | none => none

/-- Feature half of the merged candidate list (lines 207-226): sorted by
similarity, truncated to the limit, formatted with the rounded score. -/
def featureResults (db : List PFeature) (cosSim : List ℚ → List ℚ → ℚ)
    (emb : List ℚ) (parsed : ParsedNat) (reqBody : Option String)
    (limit : ℕ) : List FeatureResultF :=
  ((sortDescBy (fun p => p.2) (scoredFeatures db cosSim emb parsed reqBody)).take
      limit).map fun p =>
    { id := Sum.inl p.1.id, name := p.1.feature_name, body := some p.1.target_body,
      category := Sum.inl p.1.category, latitude := some p.1.latitude,
      longitude := some p.1.longitude, diameter := p.1.diameter,
      origin := p.1.origin, description := p.1.description,
      similarity_score := some (roundQ4 p.2), is_dynamic_event := false }

/-- Source order of the final merge: event results are appended before
feature results (`all_results`). -/
def mergedCandidates (db : List PFeature) (cosSim : List ℚ → List ℚ → ℚ)
    (emb : List ℚ) (eonet : Except Unit (List EONETEventF))
    (req : SearchRequestF) : List FeatureResultF :=
  eventCandidates (parseNaturalQuery req.query req.target_body) req eonet ++
    featureResults db cosSim emb (parseNaturalQuery req.query req.target_body)
      req.target_body req.limit

/-- Assembly of the response (`semantic_search` lines 228-239): stable
descending sort of the merged list by `similarity_score or 0`, truncation to
the limit, and the two observability counts. -/
def buildSearchResponse (db : List PFeature) (cosSim : List ℚ → List ℚ → ℚ)
    (emb : List ℚ) (eonet : Except Unit (List EONETEventF))
    (req : SearchRequestF) : SearchResponseF :=
  let parsed := parseNaturalQuery req.query req.target_body
  let evs := eventCandidates parsed req eonet
  let fts := featureResults db cosSim emb parsed req.target_body req.limit
  let allR := evs ++ fts
  { query := req.query, parsed_query := parsed,
    results := (sortDescBy sortKey allR).take req.limit,
    total_results := allR.length,
    event_count := evs.length, feature_count := fts.length }

/-- Model of `search.semantic_search`: the embedding step can raise (a
`ValueError` from validation or from the model call, surfaced as HTTP 500,
`.error`); everything else is total. -/
def semanticSearch (db : List PFeature) (cosSim : List ℚ → List ℚ → ℚ)
    (encode : List Char → EncodeOutcome)
    (eonet : Except Unit (List EONETEventF)) (req : SearchRequestF) :
    Except String SearchResponseF :=
  match generateEmbedding req.query true encode with
  | .error e => .error ("Search error: " ++ e)
  | .ok emb => .ok (buildSearchResponse db cosSim emb eonet req)

theorem head?_dropWhile_ws (l : List Char) (c : Char)
    (h : (l.dropWhile isPyWs).head? = some c) : isPyWs c = false := by
  induction l with
  | nil => simp at h
  | cons a t ih =>
    by_cases ha : isPyWs a
    · rw [List.dropWhile_cons_of_pos ha] at h
      exact ih h
    · rw [List.dropWhile_cons_of_neg ha] at h
      simp at h
      subst h
      simpa using ha

theorem headOkL_lstrip (l : List Char) : headOkL (lstrip l) := by
  unfold lstrip
  cases h : l.dropWhile isPyWs with
  | nil => trivial
  | cons c t =>
    have : (l.dropWhile isPyWs).head? = some c := by rw [h]; rfl
    exact head?_dropWhile_ws l c this

theorem rstrip_append (u : List Char) :
    u = rstrip u ++ (u.reverse.takeWhile isPyWs).reverse := by
  unfold rstrip
  rw [← List.reverse_append, List.takeWhile_append_dropWhile, List.reverse_reverse]

theorem headOkL_rstrip (u : List Char) (h : headOkL u) : headOkL (rstrip u) := by
  cases hr : rstrip u with
  | nil => trivial
  | cons c t =>
    have hu := rstrip_append u
    rw [hr] at hu
    cases u with
    | nil => simp at hu
    | cons a v =>
      have : a = c := by
        have := congrArg List.head? hu
        simpa using this
      subst this
      exact h

theorem getLast?_rstrip (u : List Char) (c : Char)
    (h : (rstrip u).getLast? = some c) : isPyWs c = false := by
  unfold rstrip at h
  rw [List.getLast?_reverse] at h
  exact head?_dropWhile_ws _ c h

theorem headOkL_pyStrip (l : List Char) : headOkL (pyStrip l) :=
  headOkL_rstrip _ (headOkL_lstrip l)

theorem mem_lstrip (l : List Char) (c : Char) (h : c ∈ lstrip l) : c ∈ l := by
  have := List.takeWhile_append_dropWhile (p := isPyWs) (l := l)
  unfold lstrip at h
  rw [← this]
  exact List.mem_append_right _ h

theorem mem_rstrip (u : List Char) (c : Char) (h : c ∈ rstrip u) : c ∈ u := by
  rw [rstrip_append u]
  exact List.mem_append_left _ h

theorem mem_pyStrip (l : List Char) (c : Char) (h : c ∈ pyStrip l) : c ∈ l :=
  mem_lstrip l c (mem_rstrip _ c h)

theorem lstrip_eq_self_of_headOk (u : List Char) (h : headOkL u) : lstrip u = u := by
  cases u with
  | nil => rfl
  | cons c t => exact List.dropWhile_cons_of_neg (by simpa using h)

theorem rstrip_eq_self_of_getLast (u : List Char)
    (h : ∀ c, u.getLast? = some c → isPyWs c = false) : rstrip u = u := by
  unfold rstrip
  cases hv : u.reverse with
  | nil =>
    simp at hv
    simp [hv]
  | cons c t =>
    have hc : isPyWs c = false := by
      apply h
      rw [← List.head?_reverse, hv]
      rfl
    rw [List.dropWhile_cons_of_neg (by simp [hc]), ← hv, List.reverse_reverse]

theorem getLast?_cons_ne (a : Char) (x : List Char) (hx : x ≠ []) :
    (a :: x).getLast? = x.getLast? := by
  cases x with
  | nil => exact absurd rfl hx
  | cons b y => exact List.getLast?_cons_cons ..

theorem ne_nil_of_getLast? {x : List Char} {c : Char} (h : x.getLast? = some c) :
    x ≠ [] := by
  intro hx
  subst hx
  simp at h

theorem headOkL_cons {c : Char} {t : List Char} : headOkL (c :: t) ↔ isPyWs c = false :=
  Iff.rfl

theorem collapseWsAux_cons_ws {c : Char} {rest : List Char} (hc : isPyWs c = true) :
    collapseWsAux false (c :: rest) = ' ' :: collapseWsAux true rest := by
  simp [collapseWsAux, hc]

theorem collapseWsAux_cons_ws_true {c : Char} {rest : List Char} (hc : isPyWs c = true) :
    collapseWsAux true (c :: rest) = collapseWsAux true rest := by
  simp [collapseWsAux, hc]

theorem collapseWsAux_cons_not_ws {c : Char} {rest : List Char} (b : Bool)
    (hc : isPyWs c = false) :
    collapseWsAux b (c :: rest) = c :: collapseWsAux false rest := by
  simp [collapseWsAux, hc]

theorem collapseWsAux_headOk (l : List Char) : headOkL (collapseWsAux true l) := by
  induction l with
  | nil => trivial
  | cons c rest ih =>
    by_cases hc : isPyWs c
    · rw [collapseWsAux_cons_ws_true hc]
      exact ih
    · rw [collapseWsAux_cons_not_ws true (by simpa using hc)]
      exact headOkL_cons.mpr (by simpa using hc)

theorem collapseWsAux_headOk_false (m : List Char) (h : headOkL m) :
    headOkL (collapseWsAux false m) := by
  cases m with
  | nil => trivial
  | cons c t =>
    have hc : isPyWs c = false := h
    rw [collapseWsAux_cons_not_ws false hc]
    exact headOkL_cons.mpr hc

theorem collapseWsAux_state_irrel (l : List Char) (h : headOkL l) :
    collapseWsAux true l = collapseWsAux false l := by
  cases l with
  | nil => rfl
  | cons c t =>
    have hc : isPyWs c = false := h
    rw [collapseWsAux_cons_not_ws true hc, collapseWsAux_cons_not_ws false hc]

theorem collapseWsAux_idem (l : List Char) :
    ∀ b, collapseWsAux false (collapseWsAux b l) = collapseWsAux b l := by
  induction l with
  | nil => intro b; rfl
  | cons c rest ih =>
    intro b
    by_cases hc : isPyWs c
    · cases b with
      | true =>
        rw [collapseWsAux_cons_ws_true (by simpa using hc)]
        exact ih true
      | false =>
        rw [collapseWsAux_cons_ws (by simpa using hc)]
        rw [collapseWsAux_cons_ws (by decide)]
        rw [collapseWsAux_state_irrel _ (collapseWsAux_headOk rest), ih true]
    · rw [collapseWsAux_cons_not_ws b (by simpa using hc)]
      rw [collapseWsAux_cons_not_ws false (by simpa using hc), ih false]

theorem collapseWsAux_mem (l : List Char) :
    ∀ b c, c ∈ collapseWsAux b l → c = ' ' ∨ c ∈ l := by
  induction l with
  | nil => intro b c h; simp [collapseWsAux] at h
  | cons a rest ih =>
    intro b c h
    by_cases ha : isPyWs a
    · cases b with
      | true =>
        rw [collapseWsAux_cons_ws_true (by simpa using ha)] at h
        rcases ih true c h with h' | h'
        · exact Or.inl h'
        · exact Or.inr (List.mem_cons_of_mem _ h')
      | false =>
        rw [collapseWsAux_cons_ws (by simpa using ha)] at h
        rcases List.mem_cons.mp h with h' | h'
        · exact Or.inl h'
        · rcases ih true c h' with h'' | h''
          · exact Or.inl h''
          · exact Or.inr (List.mem_cons_of_mem _ h'')
    · rw [collapseWsAux_cons_not_ws b (by simpa using ha)] at h
      rcases List.mem_cons.mp h with h' | h'
      · exact Or.inr (by simp [h'])
      · rcases ih false c h' with h'' | h''
        · exact Or.inl h''
        · exact Or.inr (List.mem_cons_of_mem _ h'')

theorem collapseWsAux_getLast (l : List Char) :
    ∀ b c, l.getLast? = some c → isPyWs c = false →
      (collapseWsAux b l).getLast? = some c := by
  induction l with
  | nil => intro b c h; simp at h
  | cons a rest ih =>
    intro b c h hc
    cases rest with
    | nil =>
      simp at h
      subst h
      simp [collapseWsAux, hc]
    | cons a2 t2 =>
      have hrest : (a2 :: t2).getLast? = some c := by
        rw [← List.getLast?_cons_cons (a := a)]
        exact h
      by_cases ha : isPyWs a
      · have hx := ih true c hrest hc
        cases b with
        | true =>
          rw [collapseWsAux_cons_ws_true (by simpa using ha)]
          exact hx
        | false =>
          rw [collapseWsAux_cons_ws (by simpa using ha)]
          rw [getLast?_cons_ne _ _ (ne_nil_of_getLast? hx)]
          exact hx
      · have hx := ih false c hrest hc
        rw [collapseWsAux_cons_not_ws b (by simpa using ha)]
        rw [getLast?_cons_ne _ _ (ne_nil_of_getLast? hx)]
        exact hx

example : sanitizeInputS "  hello world  " = "hello world" := by decide

example : sanitizeInputS "hello    world" = "hello world" := by decide

example : sanitizeInputS ("hello" ++ ⟨[Char.ofNat 0]⟩ ++ "world") = "helloworld" := by decide

example : (validateQueryS "").1 = false := by decide

example : (validateQueryS "   ").1 = false := by decide

example : (validateQueryS "a").1 = false := by decide

example : (validateQueryS "show me craters on mars") = (true, none) := by decide

example : (validateQueryS "show me craters; drop table users").1 = false := by decide

example : (validateQueryS "craters union select passwords").1 = false := by decide

example : (validateQueryS "union selects").1 = true := by decide

example : (validateQueryS "craters /* hi */").1 = false := by decide

example : (validateQueryS "???").1 = false := by decide

theorem keepCtrl_space : keepCtrl ' ' = true := by decide

theorem keepCtrl_not_nul {c : Char} (h : keepCtrl c = true) : c ≠ Char.ofNat 0 := by
  intro hc
  subst hc
  simp [keepCtrl] at h

theorem sanitizeInput_eq_collapse (l : List Char) (hl : l ≠ [])
    (h : ∀ c ∈ l, keepCtrl c = true) :
    sanitizeInput l = collapseWs (pyStrip l) := by
  have hmem : ∀ c ∈ pyStrip l, keepCtrl c = true := fun c hc => h c (mem_pyStrip l c hc)
  have hrn : removeNul (pyStrip l) = pyStrip l := by
    apply List.filter_eq_self.mpr
    intro c hc
    simpa using keepCtrl_not_nul (hmem c hc)
  have hfk : (pyStrip l).filter keepCtrl = pyStrip l :=
    List.filter_eq_self.mpr hmem
  unfold sanitizeInput
  rw [if_neg hl, hrn, hfk]

/-- Every character of `collapseWs (pyStrip l)` passes the control filter,
provided those of `l` do. -/
theorem sanitized_chars_clean (l : List Char) (h : ∀ c ∈ l, keepCtrl c = true) :
    ∀ c ∈ collapseWs (pyStrip l), keepCtrl c = true := by
  intro c hc
  rcases collapseWsAux_mem (pyStrip l) false c hc with h' | h'
  · rw [h']; exact keepCtrl_space
  · exact h c (mem_pyStrip l c h')

theorem pyStrip_collapse_pyStrip (l : List Char) :
    pyStrip (collapseWs (pyStrip l)) = collapseWs (pyStrip l) := by
  by_cases hm : pyStrip l = []
  · rw [hm]; rfl
  · have hhead : headOkL (collapseWs (pyStrip l)) :=
      collapseWsAux_headOk_false _ (headOkL_pyStrip l)
    have hlast : ∀ c, (collapseWs (pyStrip l)).getLast? = some c → isPyWs c = false := by
      intro c hc
      obtain ⟨c0, hc0⟩ : ∃ c0, (pyStrip l).getLast? = some c0 := by
        cases hml : (pyStrip l).getLast? with
        | none => exact absurd (List.getLast?_eq_none_iff.mp hml) hm
        | some c0 => exact ⟨c0, rfl⟩
      have hc0ws : isPyWs c0 = false := getLast?_rstrip (lstrip l) c0 hc0
      have := collapseWsAux_getLast (pyStrip l) false c0 hc0 hc0ws
      rw [show collapseWs (pyStrip l) = collapseWsAux false (pyStrip l) from rfl, this] at hc
      cases hc
      exact hc0ws
    show rstrip (lstrip (collapseWs (pyStrip l))) = collapseWs (pyStrip l)
    rw [lstrip_eq_self_of_headOk _ hhead]
    exact rstrip_eq_self_of_getLast _ hlast

/-- C9 (amended): on inputs with no control characters other than newline and
tab (in particular, no NUL), `sanitize_input` is idempotent. -/
theorem sanitize_idempotent_on_clean (l : List Char)
    (h : ∀ c ∈ l, keepCtrl c = true) :
    sanitizeInput (sanitizeInput l) = sanitizeInput l := by
  by_cases hl : l = []
  · subst hl; rfl
  rw [sanitizeInput_eq_collapse l hl h]
  set r := collapseWs (pyStrip l) with hr
  by_cases hrn : r = []
  · rw [hrn]; rfl
  have hclean : ∀ c ∈ r, keepCtrl c = true := sanitized_chars_clean l h
  rw [sanitizeInput_eq_collapse r hrn hclean]
  rw [show pyStrip r = r from pyStrip_collapse_pyStrip l]
  exact collapseWsAux_idem (pyStrip l) false

/-- Witness for C9's amended theorem at a concrete clean input. -/
theorem sanitize_idempotent_on_clean_witness :
    sanitizeInput (sanitizeInput "  hello   world ".data) = sanitizeInput "  hello   world ".data :=
  sanitize_idempotent_on_clean _ (by decide)

/-- C9 counterexample: `sanitize_input` is not idempotent in general.  For
`"a \x01"` the first pass removes the control character `\x01`, exposing a
trailing space that only the second pass strips. -/
theorem sanitize_idempotent_counterexample :
    sanitizeInput (sanitizeInput ['a', ' ', Char.ofNat 1]) ≠
      sanitizeInput ['a', ' ', Char.ofNat 1] := by decide

/-- C3 counterexample: `"???"` has length in `[2,500]` and matches none of the
unsafe patterns, yet `validate_query` rejects it (too many special
characters). -/
theorem validateQuery_unsafe_only_counterexample :
    (2 ≤ "???".data.length ∧ "???".data.length ≤ 500 ∧
        dangerousMatch (pyLower "???".data) = false) ∧
      validateQuery "???".data ≠ (true, none) := by decide

/-- C3 (amended): a query of length in `[2,500]` that is not whitespace-only,
matches no unsafe pattern, and whose special-character count is at most 30%
of its length is accepted with no error reason. -/
theorem validateQuery_accepts_safe_queries (l : List Char)
    (h1 : 2 ≤ l.length) (h2 : l.length ≤ 500)
    (h3 : dangerousMatch (pyLower l) = false)
    (h4 : 10 * specialCharCount l ≤ 3 * l.length)
    (h5 : pyStrip l ≠ []) :
    validateQuery l = (true, none) := by
  have hne : l ≠ [] := by
    intro h
    subst h
    simp at h1
  unfold validateQuery
  rw [if_neg (by simp [hne, h5]), if_neg (by omega), if_neg (by omega),
    if_neg (by simp [h3]), if_neg (by omega)]

/-- Witness for C3's amended theorem at a concrete safe query. -/
theorem validateQuery_accepts_safe_queries_witness :
    validateQuery "craters on mars".data = (true, none) :=
  validateQuery_accepts_safe_queries _ (by decide) (by decide) (by decide)
    (by decide) (by decide)

example : (parseNaturalQuery "show me dust storms on mars".data none).search_type = "event" := by decide

example : (parseNaturalQuery "show me dust storms on mars".data none).event_category = some "Dust and Haze" := by decide

example : (parseNaturalQuery "show me dust storms on mars".data none).target_body = some "Mars" := by decide

example : (parseNaturalQuery "large craters near tycho".data none).category = some "Crater" := by decide

example : (parseNaturalQuery "large craters near tycho".data none).size_filter = some "large" := by decide

example : (parseNaturalQuery "lunar mountains".data none).target_body = some "Moon" := by decide

example : (parseNaturalQuery "lunar mountains".data none).category = some "Mons" := by decide

example : (parseNaturalQuery "features named after scientists".data none).origin_filter = true := by decide

example : (parseNaturalQuery "red planet craters".data none).target_body = some "Mars" := by decide

example : (parseNaturalQuery "large or small craters".data none).size_filter = some "large" := by decide

example : (fallbackParse "Show me large craters on the Moon".data none).target_body = some "Moon" := by decide

example : (fallbackParse "Show me large craters on the Moon".data none).category = some "crater" := by decide

example : (fallbackParse "Show me large craters on the Moon".data none).size_filter = some "large" := by decide

example : (fallbackParse "Show me large craters on the Moon".data none).search_keywords = ["large", "craters", "moon"] := by decide

/-- Helper: the `target_body` field of the deterministic parser's output, as a
function of detection and the override. -/
theorem parseNaturalQuery_target_body (q : List Char) (tb : Option String) :
    (parseNaturalQuery q tb).target_body =
      match validateQuery (sanitizeInput q) with
      | (false, _) => none
      | (true, _) =>
        match detectBody (pyLower (sanitizeInput q)) with
        | some b => some b
        | none => if truthyS tb then tb else none := by
  unfold parseNaturalQuery
  cases hv : validateQuery (sanitizeInput q) with
  | mk ok msg =>
    cases ok with
    | false => simp only [hv]
    | true => simp only [hv]

/-- Helper: the `target_body` field of the fallback parser's output. -/
theorem fallbackParse_target_body (q : List Char) (tb : Option String) :
    (fallbackParse q tb).target_body =
      match (fbBodyKeywords.find? fun p => containsSub p.1 (pyLower q)).map (·.2) with
      | some b => some b
      | none => if truthyS tb then tb else none := rfl

/-- Helper: reduction of the DeepSeek parser on a successful remote call. -/
theorem parseQueryWithDeepseek_some (q : List Char) (tbO key : Option String)
    (parsed : DSParsed) (hkey : truthyS key = true) :
    parseQueryWithDeepseek q tbO key (some parsed) =
      if (truthyS tbO && !truthyS parsed.target_body) = true then
        { parsed with target_body := tbO }
      else parsed := by
  unfold parseQueryWithDeepseek
  rw [if_neg (by simp [hkey])]

/-- C7: in both parser strategies, a per-call target-body override never
replaces a body detected from the query; it fills the field only when parsing
left it unset.  Conjunct 1/2: the deterministic parser keeps/fills; conjunct
3/4: the remote (DeepSeek) path keeps a truthy remote-detected body and fills
a falsy one; conjunct 5/6: the fallback parser keeps/fills. -/
theorem override_fills_only_gaps :
    (∀ (q : List Char) (tbO : Option String) (d : String),
        (parseNaturalQuery q none).target_body = some d →
        (parseNaturalQuery q tbO).target_body = some d) ∧
    (∀ (q : List Char) (b : String),
        (validateQuery (sanitizeInput q)).1 = true →
        (parseNaturalQuery q none).target_body = none → b ≠ "" →
        (parseNaturalQuery q (some b)).target_body = some b) ∧
    (∀ (q : List Char) (tbO key : Option String) (parsed : DSParsed) (d : String),
        truthyS key = true → parsed.target_body = some d → d ≠ "" →
        (parseQueryWithDeepseek q tbO key (some parsed)).target_body = some d) ∧
    (∀ (q : List Char) (b : String) (key : Option String) (parsed : DSParsed),
        truthyS key = true → truthyS parsed.target_body = false → b ≠ "" →
        (parseQueryWithDeepseek q (some b) key (some parsed)).target_body = some b) ∧
    (∀ (q : List Char) (tbO : Option String) (d : String),
        (fallbackParse q none).target_body = some d →
        (fallbackParse q tbO).target_body = some d) ∧
    (∀ (q : List Char) (b : String),
        (fallbackParse q none).target_body = none → b ≠ "" →
        (fallbackParse q (some b)).target_body = some b) := by
  refine ⟨?_, ?_, ?_, ?_, ?_, ?_⟩
  · intro q tbO d h
    rw [parseNaturalQuery_target_body] at h ⊢
    cases hv : validateQuery (sanitizeInput q) with
    | mk ok msg =>
      rw [hv] at h
      cases ok with
      | false => simp at h
      | true =>
        cases hb : detectBody (pyLower (sanitizeInput q)) with
        | some c =>
          rw [hb] at h
          simp at h ⊢
          exact h
        | none =>
          rw [hb] at h
          simp [truthyS] at h
  · intro q b hvalid h hb
    rw [parseNaturalQuery_target_body] at h ⊢
    cases hv : validateQuery (sanitizeInput q) with
    | mk ok msg =>
      rw [hv] at h
      cases ok with
      | false => rw [hv] at hvalid; exact absurd hvalid (by simp)
      | true =>
        cases hd : detectBody (pyLower (sanitizeInput q)) with
        | some c => rw [hd] at h; simp at h
        | none => simp [truthyS, hb]
  · intro q tbO key parsed d hkey hd hne
    have : truthyS parsed.target_body = true := by simp [truthyS, hd, hne]
    rw [parseQueryWithDeepseek_some _ _ _ _ hkey, if_neg (by simp [this])]
    exact hd
  · intro q b key parsed hkey hfalsy hb
    rw [parseQueryWithDeepseek_some _ _ _ _ hkey,
      if_pos (by rw [hfalsy]; simp [truthyS, hb])]
  · intro q tbO d h
    rw [fallbackParse_target_body] at h ⊢
    cases hb : (fbBodyKeywords.find? fun p => containsSub p.1 (pyLower q)).map (·.2) with
    | some c =>
      rw [hb] at h
      simp at h ⊢
      exact h
    | none =>
      rw [hb] at h
      simp [truthyS] at h
  · intro q b h hb
    rw [fallbackParse_target_body] at h ⊢
    cases hd : (fbBodyKeywords.find? fun p => containsSub p.1 (pyLower q)).map (·.2) with
    | some c => rw [hd] at h; simp at h
    | none => simp [truthyS, hb]

/-- Witness for C7 at concrete inputs: a detected body survives an override in
each strategy, and the override fills when detection found nothing. -/
theorem override_fills_only_gaps_witness :
    (parseNaturalQuery "mars craters".data (some "Moon")).target_body = some "Mars" ∧
    (parseNaturalQuery "big craters".data (some "Moon")).target_body = some "Moon" ∧
    (parseQueryWithDeepseek "q".data (some "Moon") (some "key")
        (some { target_body := some "Mars" })).target_body = some "Mars" ∧
    (parseQueryWithDeepseek "q".data (some "Moon") (some "key")
        (some { target_body := none })).target_body = some "Moon" ∧
    (fallbackParse "mars craters".data (some "Moon")).target_body = some "Mars" ∧
    (fallbackParse "big craters".data (some "Moon")).target_body = some "Moon" :=
  ⟨override_fills_only_gaps.1 _ _ _ (by decide),
   override_fills_only_gaps.2.1 _ _ (by decide) (by decide) (by decide),
   override_fills_only_gaps.2.2.1 _ _ _ _ _ (by decide) rfl (by decide),
   override_fills_only_gaps.2.2.2.1 _ _ _ _ (by decide) (by decide) (by decide),
   override_fills_only_gaps.2.2.2.2.1 _ _ _ (by decide),
   override_fills_only_gaps.2.2.2.2.2 _ _ (by decide) (by decide)⟩

/-- C6: for every query passing the validation gate whose lower-cased
sanitized text contains the phrase "dust storm", the deterministic parser
classifies it as an Event query with category "Dust and Haze" — the phrase
table is scanned in registration order and "dust storm" is registered before
the generic "storm". -/
theorem dust_storm_precedence (q : List Char) (tb : Option String)
    (hvalid : (validateQuery (sanitizeInput q)).1 = true)
    (hds : containsSub "dust storm" (pyLower (sanitizeInput q)) = true) :
    (parseNaturalQuery q tb).search_type = "event" ∧
      (parseNaturalQuery q tb).event_category = some "Dust and Haze" := by
  have hev : detectEvent (pyLower (sanitizeInput q)) =
      some ("dust storm", "Dust and Haze") := by
    unfold detectEvent EVENT_KEYWORDS
    rw [List.find?_cons_of_pos]
    exact hds
  unfold parseNaturalQuery
  cases hv : validateQuery (sanitizeInput q) with
  | mk ok msg =>
    cases ok with
    | false => rw [hv] at hvalid; exact absurd hvalid (by simp)
    | true => simp [hv, hev]

/-- Witness for C6 at a concrete query. -/
theorem dust_storm_precedence_witness :
    (parseNaturalQuery "dust storm near the equator".data none).search_type = "event" ∧
      (parseNaturalQuery "dust storm near the equator".data none).event_category =
        some "Dust and Haze" :=
  dust_storm_precedence _ none (by decide) (by decide)

/-- C10: when validation of the sanitized query fails, the deterministic
parser returns (never raises) a dictionary carrying the sanitized query, the
validation reason and the default "feature" search type, with no
body/category/size/origin extraction performed. -/
theorem parse_invalid_returns_error (q : List Char) (tb : Option String) (msg : String)
    (h : validateQuery (sanitizeInput q) = (false, some msg)) :
    parseNaturalQuery q tb =
      { semantic_query := sanitizeInput q, error := some msg,
        search_type := "feature" } := by
  unfold parseNaturalQuery
  rw [h]

/-- Witness for C10 at a concrete invalid query. -/
theorem parse_invalid_returns_error_witness :
    parseNaturalQuery "a".data (some "Moon") =
      { semantic_query := "a".data,
        error := some "Query must be at least 2 characters",
        search_type := "feature" } :=
  parse_invalid_returns_error _ _ _ (by decide)

/-- C2 counterexample: on text that fails validation the embedding operation
does raise (re-raises the `ValueError`), for any behaviour of the model. -/
theorem generateEmbedding_raises_counterexample :
    generateEmbedding "a".data true (fun _ => .otherError) =
      .error "Invalid query: Query must be at least 2 characters" := by
  rfl

/-- C2 (amended): `generate_embedding` raises only `ValueError` — from
validation failure with `validate=True`, or a `ValueError` escaping the model
call (the source's `except ValueError: raise` spans the whole `try` block).
Every other internal failure yields the 384-zero vector: on validated input
(or with validation disabled), as long as the model step raises no
`ValueError`, the call returns a vector, and a non-`ValueError` model failure
returns exactly the zero vector. -/
theorem generateEmbedding_fail_soft (text : List Char)
    (encode : List Char → EncodeOutcome) :
    ((validateQuery (sanitizeInput text)).1 = true →
        (∀ m, encode (sanitizeInput text) ≠ .valueError m) →
        ∃ v, generateEmbedding text true encode = .ok v) ∧
      ((∀ m, encode (sanitizeInput text) ≠ .valueError m) →
        ∃ v, generateEmbedding text false encode = .ok v) ∧
      (encode (sanitizeInput text) = .otherError →
        generateEmbedding text false encode = .ok zeroVector) ∧
      ((validateQuery (sanitizeInput text)).1 = true →
        encode (sanitizeInput text) = .otherError →
        generateEmbedding text true encode = .ok zeroVector) := by
  have htail : (∀ m, encode (sanitizeInput text) ≠ .valueError m) →
      ∃ v, embedTail (sanitizeInput text) encode = .ok v := by
    intro hnv
    unfold embedTail
    by_cases ht : sanitizeInput text = []
    · rw [if_pos ht]
      exact ⟨zeroVector, rfl⟩
    · rw [if_neg ht]
      cases he : encode (sanitizeInput text) with
      | ok v => exact ⟨v, rfl⟩
      | valueError m => exact absurd he (hnv m)
      | otherError => exact ⟨zeroVector, rfl⟩
  have htail0 : encode (sanitizeInput text) = .otherError →
      embedTail (sanitizeInput text) encode = .ok zeroVector := by
    intro he
    unfold embedTail
    by_cases ht : sanitizeInput text = []
    · rw [if_pos ht]
    · rw [if_neg ht, he]
  refine ⟨?_, ?_, ?_, ?_⟩
  · intro hval hnv
    cases hv : validateQuery (sanitizeInput text) with
    | mk ok msg =>
      cases ok with
      | false => rw [hv] at hval; exact absurd hval (by simp)
      | true =>
        obtain ⟨v, hvv⟩ := htail hnv
        refine ⟨v, ?_⟩
        unfold generateEmbedding
        rw [hv]
        exact hvv
  · intro hnv
    obtain ⟨v, hvv⟩ := htail hnv
    exact ⟨v, hvv⟩
  · intro he
    show embedTail (sanitizeInput text) encode = .ok zeroVector
    exact htail0 he
  · intro hval he
    cases hv : validateQuery (sanitizeInput text) with
    | mk ok msg =>
      cases ok with
      | false => rw [hv] at hval; exact absurd hval (by simp)
      | true =>
        unfold generateEmbedding
        rw [hv]
        exact htail0 he

/-- Witness for C2's amended theorem at a concrete valid query, with an
encode oracle that always fails. -/
theorem generateEmbedding_fail_soft_witness :
    (∃ v, generateEmbedding "craters on mars".data true (fun _ => .otherError) = .ok v) ∧
      generateEmbedding "craters on mars".data true (fun _ => .otherError) = .ok zeroVector :=
  ⟨(generateEmbedding_fail_soft _ _).1 (by decide) (fun m h => nomatch h),
   (generateEmbedding_fail_soft _ _).2.2.2 (by decide) rfl⟩

/-- C1 counterexample: with no keywords and no parsed filters the source
scores a filtered-in feature `1.0` (its base score), while the claimed
formula gives `confidence * 0 = 0`. -/
theorem calcKeywordScore_spec_counterexample :
    calcKeywordScore { feature_name := "alpha", target_body := "Moon", category := "beta" }
        [] { confidence := 9/10 } ≠
      specKeywordScore { feature_name := "alpha", target_body := "Moon", category := "beta" }
        [] { confidence := 9/10 } := by
  have h1 : calcKeywordScore
      { feature_name := "alpha", target_body := "Moon", category := "beta" }
      [] { confidence := 9/10 } = 1 := by
    simp [calcKeywordScore, catBonus, bodyBonus, sizeBonus]
  have h2 : specKeywordScore
      { feature_name := "alpha", target_body := "Moon", category := "beta" }
      [] { confidence := 9/10 } = 0 := by
    simp [specKeywordScore]
  rw [h1, h2]
  norm_num

theorem kwStep_eq (f : PFeature) (s : ℚ) (kw : String) :
    kwStep f s kw = s + kwWeight f kw := by
  by_cases h1 : subInL (pyLower kw.data) (featureText f)
  · by_cases h2 : subInL (pyLower kw.data) (pyLower f.feature_name.data)
    · simp [kwStep, kwWeight, h1, h2]
    · by_cases h3 : subInL (pyLower kw.data) (pyLower f.category.data)
      · simp [kwStep, kwWeight, h1, h2, h3]
      · simp [kwStep, kwWeight, h1, h2, h3]
  · simp [kwStep, kwWeight, h1]

theorem foldl_kwStep (f : PFeature) (l : List String) :
    ∀ a : ℚ, l.foldl (kwStep f) a = a + (l.map (kwWeight f)).sum := by
  induction l with
  | nil => intro a; simp
  | cons kw t ih =>
    intro a
    rw [List.foldl_cons, List.map_cons, List.sum_cons, kwStep_eq, ih]
    ring

/-- C1 (amended): the keyword-ranking score is the base score `1.0` plus the
per-keyword weighted overlap (+1.0 name / +0.5 category / +0.3 otherwise, for
keywords occurring in the combined text) plus the category, body and size
bonuses — and it is independent of the intent's confidence (no scaling). -/
theorem calcKeywordScore_decomposition (f : PFeature) (kws : List String)
    (parsed : DSParsed) :
    calcKeywordScore f kws parsed =
        1 + (kws.map (kwWeight f)).sum + catBonus f parsed + bodyBonus f parsed +
          sizeBonus f parsed ∧
      ∀ c : ℚ, calcKeywordScore f kws { parsed with confidence := c } =
        calcKeywordScore f kws parsed := by
  constructor
  · unfold calcKeywordScore
    rw [foldl_kwStep]
  · intro c
    rfl

theorem dictInsert_length {α : Type} (c : Cache α) (k : String) (v : α) (ts : ℚ) :
    (dictInsert c k v ts).length ≤ c.length + 1 := by
  induction c with
  | nil => simp [dictInsert]
  | cons e rest ih =>
    by_cases he : e.1 = k
    · simp [dictInsert, he]
    · simp only [dictInsert, he, if_false, ite_false, List.length_cons]
      omega

theorem eraseKey_length {α : Type} (c : Cache α) (k : String)
    (h : ∃ e ∈ c, e.1 = k) : (eraseKey c k).length + 1 = c.length := by
  induction c with
  | nil => simp at h
  | cons e rest ih =>
    by_cases he : e.1 = k
    · simp [eraseKey, he]
    · have h' : ∃ x ∈ rest, x.1 = k := by
        obtain ⟨x, hx, hk⟩ := h
        rcases List.mem_cons.mp hx with rfl | hm
        · exact absurd hk he
        · exact ⟨x, hm, hk⟩
      have hih := ih h'
      simp only [eraseKey, he, if_false, ite_false, List.length_cons]
      omega

theorem oldestEntry_of_ne_nil {α : Type} (c : Cache α) (h : c ≠ []) :
    ∃ b, oldestEntry c = some b := by
  cases c with
  | nil => exact absurd rfl h
  | cons e rest =>
    unfold oldestEntry
    cases oldestEntry rest with
    | none => exact ⟨e, rfl⟩
    | some b =>
      by_cases hlt : b.2.2 < e.2.2
      · refine ⟨b, ?_⟩
        show (if b.2.2 < e.2.2 then some b else some e) = some b
        rw [if_pos hlt]
      · refine ⟨e, ?_⟩
        show (if b.2.2 < e.2.2 then some b else some e) = some e
        rw [if_neg hlt]

theorem oldestEntry_mem {α : Type} (c : Cache α) :
    ∀ b, oldestEntry c = some b → b ∈ c := by
  induction c with
  | nil => intro b h; simp [oldestEntry] at h
  | cons e rest ih =>
    intro b h
    unfold oldestEntry at h
    cases ho : oldestEntry rest with
    | none =>
      rw [ho] at h
      have h' : some e = some b := h
      cases h'
      exact List.mem_cons_self e rest
    | some b2 =>
      rw [ho] at h
      have h' : (if b2.2.2 < e.2.2 then some b2 else some e) = some b := h
      by_cases hlt : b2.2.2 < e.2.2
      · rw [if_pos hlt] at h'
        cases h'
        exact List.mem_cons_of_mem _ (ih b ho)
      · rw [if_neg hlt] at h'
        cases h'
        exact List.mem_cons_self e rest

theorem oldestEntry_min {α : Type} (c : Cache α) :
    ∀ b, oldestEntry c = some b → ∀ x ∈ c, b.2.2 ≤ x.2.2 := by
  induction c with
  | nil => intro b h; simp [oldestEntry] at h
  | cons e rest ih =>
    intro b h x hx
    unfold oldestEntry at h
    cases ho : oldestEntry rest with
    | none =>
      have hrest : rest = [] := by
        cases rest with
        | nil => rfl
        | cons y ys =>
          exfalso
          obtain ⟨b3, hb3⟩ := oldestEntry_of_ne_nil (y :: ys) (by simp)
          rw [hb3] at ho
          cases ho
      rw [ho] at h
      have h' : some e = some b := h
      cases h'
      subst hrest
      rcases List.mem_cons.mp hx with rfl | h0
      · exact le_refl _
      · simp at h0
    | some b2 =>
      rw [ho] at h
      have h' : (if b2.2.2 < e.2.2 then some b2 else some e) = some b := h
      by_cases hlt : b2.2.2 < e.2.2
      · rw [if_pos hlt] at h'
        cases h'
        rcases List.mem_cons.mp hx with rfl | h0
        · exact le_of_lt hlt
        · exact ih b ho x h0
      · rw [if_neg hlt] at h'
        cases h'
        rcases List.mem_cons.mp hx with rfl | h0
        · exact le_refl _
        · exact le_trans (not_lt.mp hlt) (ih b2 ho x h0)

theorem cacheResult_at_capacity {α : Type} (c : Cache α) (now : ℚ) (k : String)
    (v : α) (h : 100 ≤ c.length) (b : String × α × ℚ) (hb : oldestEntry c = some b) :
    cacheResult c now k v = dictInsert (eraseKey c b.1) k v now := by
  unfold cacheResult
  rw [if_pos h, hb]

/-- C5: a cached entry is returned only while strictly less than 300 seconds
(5 minutes) have elapsed since its insertion timestamp; a put keeps the cache
within 100 entries; and a put at capacity first evicts exactly the entry with
the minimal (oldest) insertion timestamp. -/
theorem resultCache_ttl_capacity :
    (∀ (α : Type) (c : Cache α) (now : ℚ) (k : String) (r : α),
        (getCachedResult c now k).1 = some r ↔
          ∃ ts, cacheLookup c k = some (r, ts) ∧ now - ts < 300) ∧
      (∀ (α : Type) (c : Cache α) (now : ℚ) (k : String) (v : α),
        c.length ≤ 100 → (cacheResult c now k v).length ≤ 100) ∧
      (∀ (α : Type) (c : Cache α) (now : ℚ) (k : String) (v : α),
        c.length = 100 →
          ∃ b, oldestEntry c = some b ∧ b ∈ c ∧ (∀ x ∈ c, b.2.2 ≤ x.2.2) ∧
            cacheResult c now k v = dictInsert (eraseKey c b.1) k v now) := by
  refine ⟨?_, ?_, ?_⟩
  · intro α c now k r
    unfold getCachedResult
    cases hl : cacheLookup c k with
    | none => simp
    | some p =>
      obtain ⟨v, ts⟩ := p
      by_cases hts : now - ts < 300
      · simp [hts]
        constructor
        · intro hv
          exact ⟨ts, ⟨hv, rfl⟩, hts⟩
        · rintro ⟨ts1, ⟨hv, hts1⟩, h300⟩
          exact hv
      · have h300 : 300 ≤ now - ts := not_lt.mp hts
        simp [hts, h300]
  · intro α c now k v hle
    by_cases hcap : 100 ≤ c.length
    · have hne : c ≠ [] := by
        intro h
        rw [h] at hcap
        simp at hcap
      obtain ⟨b, hb⟩ := oldestEntry_of_ne_nil c hne
      rw [cacheResult_at_capacity c now k v hcap b hb]
      have hbm : b ∈ c := oldestEntry_mem c b hb
      have he : (eraseKey c b.1).length + 1 = c.length :=
        eraseKey_length c b.1 ⟨b, hbm, rfl⟩
      have hd := dictInsert_length (eraseKey c b.1) k v now
      omega
    · unfold cacheResult
      rw [if_neg hcap]
      show (dictInsert c k v now).length ≤ 100
      have hd := dictInsert_length c k v now
      omega
  · intro α c now k v h100
    have hne : c ≠ [] := by
      intro h
      rw [h] at h100
      simp at h100
    obtain ⟨b, hb⟩ := oldestEntry_of_ne_nil c hne
    exact ⟨b, hb, oldestEntry_mem c b hb, oldestEntry_min c b hb,
      cacheResult_at_capacity c now k v (by omega) b hb⟩

theorem cache100_length : cache100.length = 100 := by
  rfl

/-- Witness for C5: a fresh entry is returned inside the TTL window, and a
put on a full cache stays within capacity and evicts the oldest entry. -/
theorem resultCache_ttl_capacity_witness :
    (getCachedResult [("a", (42 : ℕ), (10 : ℚ))] 100 "a").1 = some 42 ∧
      (cacheResult cache100 0 "new" 7).length ≤ 100 ∧
      ∃ b, oldestEntry cache100 = some b ∧ b ∈ cache100 ∧
        (∀ x ∈ cache100, b.2.2 ≤ x.2.2) ∧
        cacheResult cache100 0 "new" 7 = dictInsert (eraseKey cache100 b.1) "new" 7 0 :=
  ⟨(resultCache_ttl_capacity.1 ℕ _ _ _ _).mpr ⟨10, rfl, by norm_num⟩,
   resultCache_ttl_capacity.2.1 ℕ cache100 0 "new" 7 (le_of_eq cache100_length),
   resultCache_ttl_capacity.2.2 ℕ cache100 0 "new" 7 cache100_length⟩

theorem mem_insertDescBy {β : Type} (key : β → ℚ) (x : β) (t : List β) (a : β) :
    a ∈ insertDescBy key x t ↔ a = x ∨ a ∈ t := by
  induction t with
  | nil => simp [insertDescBy]
  | cons y ys ih =>
    unfold insertDescBy
    by_cases h : key x < key y
    · rw [if_pos h]
      simp only [List.mem_cons, ih]
      tauto
    · rw [if_neg h]
      simp only [List.mem_cons]

theorem insertDescBy_pairwise {β : Type} (key : β → ℚ) (x : β) (t : List β)
    (h : t.Pairwise fun a b => key b ≤ key a) :
    (insertDescBy key x t).Pairwise fun a b => key b ≤ key a := by
  induction t with
  | nil => simp [insertDescBy]
  | cons y ys ih =>
    rw [List.pairwise_cons] at h
    obtain ⟨hy, hys⟩ := h
    unfold insertDescBy
    by_cases hxy : key x < key y
    · rw [if_pos hxy]
      rw [List.pairwise_cons]
      constructor
      · intro b hb
        rcases (mem_insertDescBy key x ys b).mp hb with rfl | hbm
        · exact le_of_lt hxy
        · exact hy b hbm
      · exact ih hys
    · rw [if_neg hxy]
      rw [List.pairwise_cons]
      constructor
      · intro b hb
        rcases List.mem_cons.mp hb with rfl | hbm
        · exact not_lt.mp hxy
        · exact le_trans (hy b hbm) (not_lt.mp hxy)
      · exact List.pairwise_cons.mpr ⟨hy, hys⟩

theorem sortDescBy_sorted {β : Type} (key : β → ℚ) (l : List β) :
    (sortDescBy key l).Pairwise fun a b => key b ≤ key a := by
  induction l with
  | nil => simp [sortDescBy]
  | cons x xs ih => exact insertDescBy_pairwise key x _ ih

theorem insertDescBy_filter {β : Type} (key : β → ℚ) (x : β) (t : List β) (c : ℚ) :
    (insertDescBy key x t).filter (fun a => key a == c) =
      if key x == c then x :: t.filter (fun a => key a == c)
      else t.filter (fun a => key a == c) := by
  induction t with
  | nil =>
    by_cases hx : key x == c
    · simp [insertDescBy, List.filter, hx]
    · simp [insertDescBy, List.filter, hx]
  | cons y ys ih =>
    unfold insertDescBy
    by_cases hxy : key x < key y
    · rw [if_pos hxy]
      by_cases hx : key x == c
      · have hyc : (key y == c) = false := by
          have hxc : key x = c := by simpa using hx
          have : key y ≠ c := by
            rw [← hxc]
            exact ne_of_gt hxy
          simpa using this
        rw [if_pos hx]
        rw [List.filter_cons_of_neg (by simp [hyc]), ih, if_pos hx,
          List.filter_cons_of_neg (by simp [hyc])]
      · rw [if_neg hx]
        by_cases hy : key y == c
        · rw [List.filter_cons_of_pos (by simp [hy]), ih, if_neg hx,
            List.filter_cons_of_pos (by simp [hy])]
        · rw [List.filter_cons_of_neg (by simp [hy]), ih, if_neg hx,
            List.filter_cons_of_neg (by simp [hy])]
    · rw [if_neg hxy]
      by_cases hx : key x == c
      · rw [if_pos hx, List.filter_cons_of_pos (by simp [hx])]
      · rw [if_neg hx, List.filter_cons_of_neg (by simp [hx])]

theorem sortDescBy_filter {β : Type} (key : β → ℚ) (l : List β) (c : ℚ) :
    (sortDescBy key l).filter (fun a => key a == c) =
      l.filter (fun a => key a == c) := by
  induction l with
  | nil => rfl
  | cons x xs ih =>
    show (insertDescBy key x (sortDescBy key xs)).filter _ = _
    rw [insertDescBy_filter]
    by_cases hx : key x == c
    · rw [if_pos hx, ih, List.filter_cons_of_pos (by simp [hx])]
    · rw [if_neg hx, ih, List.filter_cons_of_neg (by simp [hx])]

theorem eventCandidates_score (parsed : ParsedNat) (req : SearchRequestF)
    (eonet : Except Unit (List EONETEventF)) :
    ∀ e ∈ eventCandidates parsed req eonet, e.similarity_score = some (0.95 : ℚ) := by
  intro e he
  obtain ⟨ev, _, rfl⟩ := List.mem_map.mp he
  rfl

/-- C4: every search response's result list is (a) exactly the stable
descending sort of the merged event-then-feature candidate list truncated to
the limit, (b) bounded by the limit, (c) sorted by score descending, with
(d) ties resolved by source order (stability: filtering the sorted list at
any score value preserves the source order), and (e) since every event
carries the fixed score 0.95, all events precede every equal-scored feature. -/
theorem searchResponse_ordering (db : List PFeature)
    (cosSim : List ℚ → List ℚ → ℚ) (emb : List ℚ)
    (eonet : Except Unit (List EONETEventF)) (req : SearchRequestF) :
    (buildSearchResponse db cosSim emb eonet req).results =
        (sortDescBy sortKey (mergedCandidates db cosSim emb eonet req)).take req.limit ∧
      (buildSearchResponse db cosSim emb eonet req).results.length ≤ req.limit ∧
      (buildSearchResponse db cosSim emb eonet req).results.Pairwise
        (fun a b => sortKey b ≤ sortKey a) ∧
      (∀ c : ℚ,
        (sortDescBy sortKey (mergedCandidates db cosSim emb eonet req)).filter
            (fun r => sortKey r == c) =
          (mergedCandidates db cosSim emb eonet req).filter (fun r => sortKey r == c)) ∧
      (∀ e ∈ eventCandidates (parseNaturalQuery req.query req.target_body) req eonet,
        e.similarity_score = some (0.95 : ℚ)) ∧
      (sortDescBy sortKey (mergedCandidates db cosSim emb eonet req)).filter
          (fun r => sortKey r == (0.95 : ℚ)) =
        eventCandidates (parseNaturalQuery req.query req.target_body) req eonet ++
          (featureResults db cosSim emb (parseNaturalQuery req.query req.target_body)
              req.target_body req.limit).filter (fun r => sortKey r == (0.95 : ℚ)) := by
  refine ⟨rfl, ?_, ?_, ?_, eventCandidates_score _ _ _, ?_⟩
  · exact List.length_take_le _ _
  · exact ((sortDescBy_sorted sortKey _).sublist (List.take_sublist _ _))
  · intro c
    exact sortDescBy_filter sortKey _ c
  · rw [sortDescBy_filter]
    unfold mergedCandidates
    rw [List.filter_append]
    have hev : (eventCandidates (parseNaturalQuery req.query req.target_body) req
        eonet).filter (fun r => sortKey r == (0.95 : ℚ)) =
        eventCandidates (parseNaturalQuery req.query req.target_body) req eonet := by
      apply List.filter_eq_self.mpr
      intro a ha
      have := eventCandidates_score _ _ _ a ha
      simp [sortKey, this]
    rw [hev]

theorem eventSource_error_nil (parsed : ParsedNat) (req : SearchRequestF) :
    eventSource parsed req (.error ()) = [] := by
  unfold eventSource
  by_cases h1 : (req.include_events && (parsed.search_type == "event")) = true
  · rw [if_pos h1]
    cases hc : parsed.event_category with
    | none => rfl
    | some c =>
      show (if c = "" then ([] : List EONETEventF) else []) = []
      exact ite_self []
  · rw [if_neg h1]

theorem eventSource_error_eq (parsed : ParsedNat) (req : SearchRequestF) :
    eventSource parsed req (.error ()) = eventSource parsed req (.ok []) := by
  rw [eventSource_error_nil]
  unfold eventSource
  by_cases h1 : (req.include_events && (parsed.search_type == "event")) = true
  · rw [if_pos h1]
    cases hc : parsed.event_category with
    | none => rfl
    | some c =>
      show ([] : List EONETEventF) = if c = "" then [] else []
      exact (ite_self []).symm
  · rw [if_neg h1]

theorem eventCandidates_error_nil (parsed : ParsedNat) (req : SearchRequestF) :
    eventCandidates parsed req (.error ()) = [] := by
  unfold eventCandidates
  rw [eventSource_error_nil]
  rfl

theorem buildSearchResponse_error_eq (db : List PFeature)
    (cosSim : List ℚ → List ℚ → ℚ) (emb : List ℚ) (req : SearchRequestF) :
    buildSearchResponse db cosSim emb (.error ()) req =
      buildSearchResponse db cosSim emb (.ok []) req := by
  simp only [buildSearchResponse, eventCandidates, eventSource_error_eq]

/-- C8: if the event-feed call raises, the search still returns the same
successful response it would produce with an empty event list (the exception
is absorbed and the rest of the pipeline is unchanged), and whenever the
embedding step did not itself raise, the response is a success with
`event_count` `0` and exactly the catalog-only (feature) ranking. -/
theorem eventFeed_fail_open (db : List PFeature) (cosSim : List ℚ → List ℚ → ℚ)
    (encode : List Char → EncodeOutcome) (req : SearchRequestF) :
    semanticSearch db cosSim encode (.error ()) req =
        semanticSearch db cosSim encode (.ok []) req ∧
      (∀ emb, (buildSearchResponse db cosSim emb (.error ()) req).event_count = 0) ∧
      (∀ emb, generateEmbedding req.query true encode = .ok emb →
        ∃ resp, semanticSearch db cosSim encode (.error ()) req = .ok resp ∧
          resp.event_count = 0 ∧
          resp.results = (sortDescBy sortKey (featureResults db cosSim emb
              (parseNaturalQuery req.query req.target_body) req.target_body
              req.limit)).take req.limit) := by
  refine ⟨?_, ?_, ?_⟩
  · unfold semanticSearch
    cases generateEmbedding req.query true encode with
    | error e => rfl
    | ok emb =>
      show Except.ok (buildSearchResponse db cosSim emb (.error ()) req) =
        Except.ok (buildSearchResponse db cosSim emb (.ok []) req)
      rw [buildSearchResponse_error_eq]
  · intro emb
    show (eventCandidates (parseNaturalQuery req.query req.target_body) req
        (.error ())).length = 0
    rw [eventCandidates_error_nil]
    rfl
  · intro emb hemb
    refine ⟨buildSearchResponse db cosSim emb (.error ()) req, ?_, ?_, ?_⟩
    · unfold semanticSearch
      rw [hemb]
    · show (eventCandidates (parseNaturalQuery req.query req.target_body) req
          (.error ())).length = 0
      rw [eventCandidates_error_nil]
      rfl
    · show (sortDescBy sortKey (eventCandidates (parseNaturalQuery req.query
          req.target_body) req (.error ()) ++ _)).take req.limit = _
      rw [eventCandidates_error_nil, List.nil_append]

/-- Witness for C8 at a concrete event query ("wildfires on earth") with a
failing event feed. -/
theorem eventFeed_fail_open_witness :
    ∃ resp, semanticSearch [] (fun _ _ => 0) (fun _ => .otherError) (.error ())
        { query := "wildfires on earth".data } = .ok resp ∧
      resp.event_count = 0 ∧
      resp.results = (sortDescBy sortKey (featureResults [] (fun _ _ => 0) zeroVector
          (parseNaturalQuery "wildfires on earth".data none) none 10)).take 10 :=
  (eventFeed_fail_open [] (fun _ _ => 0) (fun _ => .otherError)
    { query := "wildfires on earth".data }).2.2 zeroVector (by rfl)

end NasaSearch
